import Mathlib

/-!
Verification of the Canary chat-channel subsystem
(`src/creatures/interactions/chat.cpp`).

The C++ code is shallowly embedded: `std::map` collections become sorted
association lists over `Nat` keys (preserving the in-key-order iteration of
`std::map`), player notifications (`sendTextMessage`, `sendChannelEvent`,
`sendToChannel`, `sendClosePrivate`, the scheduled guild message-of-the-day)
become an explicit event trace, and the Lua hook machinery
(`LuaScriptInterface`) becomes an abstract oracle `HookEnv` recording the
nesting-guard state (`reserveScriptEnv`) and the outcome of each bound
callback.
-/

namespace Canary

/-! ### Association lists (embedding of `std::map` with `Nat` keys)

`std::map` iterates in ascending key order; the registry and the membership
ledgers are kept as key-sorted association lists, and the operations below
mirror `find`, `contains`, `emplace`, `operator[]` (insert-or-assign),
`erase` and `clear`. -/

/-- `std::map::find`. -/
def alFind {α : Type} (k : Nat) : List (Nat × α) → Option α
  | [] => none
  | e :: rest => if e.1 = k then some e.2 else alFind k rest

/-- `std::map::contains`. -/
def alContains {α : Type} (k : Nat) (m : List (Nat × α)) : Bool :=
  (alFind k m).isSome

/-- `std::map::operator[] = v` (insert or assign), keeping the list sorted. -/
def alInsert {α : Type} (k : Nat) (v : α) : List (Nat × α) → List (Nat × α)
  | [] => [(k, v)]
  | e :: rest =>
    if k < e.1 then (k, v) :: e :: rest
    else if k = e.1 then (k, v) :: rest
    else e :: alInsert k v rest

/-- `std::map::emplace`: inserts only when the key is absent; the boolean is
`ret.second` (whether an insertion took place). -/
def alEmplace {α : Type} (k : Nat) (v : α) : List (Nat × α) → List (Nat × α) × Bool
  | [] => ([(k, v)], true)
  | e :: rest =>
    if k < e.1 then ((k, v) :: e :: rest, true)
    else if k = e.1 then (e :: rest, false)
    else
      let r := alEmplace k v rest
      (e :: r.1, r.2)

/-- `std::map::erase(key)`. -/
def alErase {α : Type} (k : Nat) : List (Nat × α) → List (Nat × α)
  | [] => []
  | e :: rest => if e.1 = k then rest else e :: alErase k rest

/-- Keys strictly ascending: the `std::map` representation invariant. -/
def alSorted {α : Type} (m : List (Nat × α)) : Prop :=
  m.Pairwise (fun a b => a.1 < b.1)

/-! ### Data model -/

/-- Directory record behind `player.getGuild()` (`Guild` interface:
`getId`, `getName`, `getMotd`). -/
structure Guild where
  gid : Nat
  gname : String
  motd : String
deriving DecidableEq, Repr

/-- The slice of `Player` consumed by the chat subsystem: `getID`,
`getGUID`, `getName`, `isPremium`, `getGuild`, `getParty` (party identity),
and `getGuildRank()->level` (`none` models a null rank pointer). -/
structure Player where
  pid : Nat
  guid : Nat
  name : String
  premium : Bool
  guild : Option Guild
  party : Option Nat
  rankLevel : Option Nat
deriving DecidableEq, Repr

/-- `sendChannelEvent` kinds (`CHANNELEVENT_JOIN` / `LEAVE` / `INVITE` /
`EXCLUDE`). -/
inductive ChannelEventKind where
  | join
  | leave
  | invite
  | exclude
deriving DecidableEq, Repr

/-- Observable notifications fanned out to players' sinks.  `toChannel`
records `sendToChannel(&fromPlayer, type, text, static_cast<uint16_t>(playerId))`
(the last argument is the map key truncated to 16 bits, exactly as the code
casts it); `guildMotd` records the scheduled `Game::sendGuildMotd` task. -/
inductive Ev where
  | textMessage (toPid : Nat) (text : String)
  | channelEvent (toPid channelId : Nat) (who : String) (kind : ChannelEventKind)
  | toChannel (toPid fromPid speakType : Nat) (text : String) (channelArg : Nat)
  | closePrivate (toPid channelId : Nat)
  | guildMotd (pid : Nat)
deriving DecidableEq, Repr

/-- Modelled from the spec: `chat.h` is not among the sources, so the
reserved category ids are taken from §3/§4.1 of the spec — `CHANNEL_GUILD`
and `CHANNEL_PARTY` are reserved ids selecting guild/party dispatch, and
`CHANNEL_PRIVATE` is the reserved id selecting private-channel creation
(also the placeholder entry's id); all three lie outside the private
allocation range [100, 10000). -/
def CHANNEL_GUILD : Nat := 0

/-- Modelled from the spec: reserved party-channel dispatch id (see
`CHANNEL_GUILD`). -/
def CHANNEL_PARTY : Nat := 1

/-- Modelled from the spec: reserved private-channel creation id (see
`CHANNEL_GUILD`); outside [100, 10000). -/
def CHANNEL_PRIVATE : Nat := 65535

/-- Modelled from the spec: `chat.h` is absent, so the render class the
spec calls "guild"/"party" (the code's `TALKTYPE_CHANNEL_Y`) is a fixed
numeric class distinct from the "officer" class. -/
def TALKTYPE_CHANNEL_Y : Nat := 7

/-- Modelled from the spec: the "officer" render class
(`TALKTYPE_CHANNEL_O`), distinct from `TALKTYPE_CHANNEL_Y`. -/
def TALKTYPE_CHANNEL_O : Nat := 8

/-- A chat channel.  `PrivateChatChannel` is the subclass adding `owner`
and `invites`; the embedding flattens the hierarchy, with `owner = 0` and
`invites = []` on plain channels — matching the C++ base-class virtual
`getOwner()` which returns 0.  Hook fields hold the event id from
`LuaScriptInterface::getEvent`, `-1` meaning unbound. -/
structure ChatChannel where
  id : Nat
  name : String
  publicChannel : Bool := false
  users : List (Nat × Player) := []
  invites : List (Nat × Player) := []
  owner : Nat := 0
  canJoinEvent : Int := -1
  onJoinEvent : Int := -1
  onLeaveEvent : Int := -1
  onSpeakEvent : Int := -1
deriving DecidableEq, Repr

/-- Outcome of a bound `onSpeak` Lua call: the protected call errored, the
callback returned a boolean, returned a number, or returned nothing usable
(no value, or a value that is neither boolean nor number — `result` stays
`false` in the C++). -/
inductive SpeakHookRet where
  | errored
  | retBool (b : Bool)
  | retNum (n : Nat)
  | retNone
deriving DecidableEq, Repr

/-- Abstract hook evaluator.  `reserveOk` models
`LuaScriptInterface::reserveScriptEnv` (the nesting guard: `false` means the
guard trips and the call fails closed); `evalBool` gives the result of
`callFunction` for the `canJoin` / `onJoin` / `onLeave` callbacks keyed by
their event ids; `evalSpeak` gives the raw `onSpeak` outcome. -/
structure HookEnv where
  reserveOk : Bool
  evalBool : Int → Player → Bool
  evalSpeak : Int → Player → Nat → String → SpeakHookRet

/-- Result of a channel-level operation: the updated channel, the emitted
notifications in order, and the boolean the C++ function returns. -/
structure ChanResult where
  chan : ChatChannel
  evs : List Ev
  ok : Bool
deriving DecidableEq, Repr

namespace ChatChannel

/-- `ChatChannel::executeCanJoinEvent`: unbound hooks allow; a tripped
nesting guard denies; otherwise the callback decides. -/
def executeCanJoinEvent (env : HookEnv) (ch : ChatChannel) (p : Player) : Bool :=
  if ch.canJoinEvent = -1 then true
  else if env.reserveOk = false then false
  else env.evalBool ch.canJoinEvent p

/-- `ChatChannel::executeOnJoinEvent`. -/
def executeOnJoinEvent (env : HookEnv) (ch : ChatChannel) (p : Player) : Bool :=
  if ch.onJoinEvent = -1 then true
  else if env.reserveOk = false then false
  else env.evalBool ch.onJoinEvent p

/-- `ChatChannel::executeOnSpeakEvent`: returns the allow/deny verdict and
the (possibly overridden) speak type.  A numeric return allows and replaces
the type; a tripped guard, an errored call, or a non-boolean non-numeric
return all deny. -/
def executeOnSpeakEvent (env : HookEnv) (ch : ChatChannel) (p : Player)
    (t : Nat) (text : String) : Bool × Nat :=
  if ch.onSpeakEvent = -1 then (true, t)
  else if env.reserveOk = false then (false, t)
  else
    match env.evalSpeak ch.onSpeakEvent p t text with
    | .errored => (false, t)
    | .retBool b => (b, t)
    | .retNum n => (true, n)
    | .retNone => (false, t)

/-- `ChatChannel::addUser`.  Fails without state change when the player is
already a member or the `onJoin` hook denies.  On success, for the guild
channel a message-of-the-day task is scheduled when the guild's motd is
non-empty, then (unless the channel is public) existing members are sent a
join event, then the player is inserted. -/
def addUser (env : HookEnv) (ch : ChatChannel) (p : Player) : ChanResult :=
  if alContains p.pid ch.users then ⟨ch, [], false⟩
  else if executeOnJoinEvent env ch p = false then ⟨ch, [], false⟩
  else
    let motdEvs : List Ev :=
      if ch.id = CHANNEL_GUILD then
        match p.guild with
        | some g => if g.motd ≠ "" then [Ev.guildMotd p.pid] else []
        | none => []
      else []
    let joinEvs : List Ev :=
      if ch.publicChannel = false then
        ch.users.map (fun e => Ev.channelEvent e.2.pid ch.id p.name .join)
      else []
    ⟨{ ch with users := alInsert p.pid p ch.users }, motdEvs ++ joinEvs, true⟩

/-- `ChatChannel::executeOnLeaveEvent`. -/
def executeOnLeaveEvent (env : HookEnv) (ch : ChatChannel) (p : Player) : Bool :=
  if ch.onLeaveEvent = -1 then true
  else if env.reserveOk = false then false
  else env.evalBool ch.onLeaveEvent p

/-- `ChatChannel::removeUser`.  Fails when the player is not a member;
otherwise erases the entry, sends the remaining members a leave event
unless the channel is public, and invokes `onLeave` best-effort (its result
is ignored and it has no modelled observable effect). -/
def removeUser (env : HookEnv) (ch : ChatChannel) (p : Player) : ChanResult :=
  match alFind p.pid ch.users with
  | none => ⟨ch, [], false⟩
  | some _ =>
    let users2 := alErase p.pid ch.users
    let evs : List Ev :=
      if ch.publicChannel = false then
        users2.map (fun e => Ev.channelEvent e.2.pid ch.id p.name .leave)
      else []
    let _ := executeOnLeaveEvent env ch p
    ⟨{ ch with users := users2 }, evs, true⟩

/-- `ChatChannel::hasUser`. -/
def hasUser (ch : ChatChannel) (p : Player) : Bool :=
  alContains p.pid ch.users

/-- `ChatChannel::talk`: fails when the speaker is not a member, otherwise
delivers `sendToChannel` to every member (in map order). -/
def talk (ch : ChatChannel) (fromPlayer : Player) (t : Nat) (text : String) :
    Bool × List Ev :=
  if alContains fromPlayer.pid ch.users = false then (false, [])
  else
    (true, ch.users.map (fun e =>
      Ev.toChannel e.2.pid fromPlayer.pid t text (e.1 % 65536)))

end ChatChannel

namespace PrivateChatChannel

/-- `PrivateChatChannel::isInvited`: the owner is implicitly invited. -/
def isInvited (ch : ChatChannel) (guid : Nat) : Bool :=
  if guid = ch.owner then true else alContains guid ch.invites

/-- `PrivateChatChannel::removeInvite`: erases the invite and reports
whether one was present. -/
def removeInvite (ch : ChatChannel) (guid : Nat) : ChatChannel × Bool :=
  ({ ch with invites := alErase guid ch.invites }, alContains guid ch.invites)

/-- `PrivateChatChannel::closeChannel`: sends every current member a
`sendClosePrivate` for this channel. -/
def closeChannel (ch : ChatChannel) : List Ev :=
  ch.users.map (fun e => Ev.closePrivate e.2.pid ch.id)

/-- `PrivateChatChannel::excludePlayer`: a failed `removeInvite` is a
no-op; otherwise the excludee is removed from membership (if present), the
inviter is notified, the excludee gets a private-close notice, and the
remaining members get an exclude event. -/
def excludePlayer (env : HookEnv) (ch : ChatChannel) (player excluded : Player) :
    ChatChannel × List Ev :=
  let r0 := removeInvite ch excluded.guid
  if r0.2 = false then (ch, [])
  else
    let r1 := ChatChannel.removeUser env r0.1 excluded
    let evs1 := [Ev.textMessage player.pid (excluded.name ++ " has been excluded.")]
    let evs2 := [Ev.closePrivate excluded.pid ch.id]
    let evs3 := r1.chan.users.map (fun e =>
      Ev.channelEvent e.2.pid ch.id excluded.name .exclude)
    (r1.chan, r1.evs ++ evs1 ++ evs2 ++ evs3)

end PrivateChatChannel

/-! ### The registry (`Chat`) -/

/-- The four independent keyed collections of `Chat`: static channels by
id, guild channels by guild id, party channels by party identity, private
channels by numeric id. -/
structure Chat where
  normalChannels : List (Nat × ChatChannel) := []
  guildChannels : List (Nat × ChatChannel) := []
  partyChannels : List (Nat × ChatChannel) := []
  privateChannels : List (Nat × ChatChannel) := []
deriving DecidableEq, Repr

/-- Identifies the registry slot a `ChatChannel*` points into, so that
mutation through the returned pointer can be replayed on the pure state. -/
inductive ChanRef where
  | normal (id : Nat)
  | guild (gid : Nat)
  | party (partyId : Nat)
  | priv (id : Nat)
deriving DecidableEq, Repr

/-- Dereference a `ChanRef`. -/
def chanAt (st : Chat) : ChanRef → Option ChatChannel
  | .normal i => alFind i st.normalChannels
  | .guild g => alFind g st.guildChannels
  | .party pa => alFind pa st.partyChannels
  | .priv i => alFind i st.privateChannels

/-- Store a channel back through a `ChanRef` (pointer write-back). -/
def setChan (st : Chat) : ChanRef → ChatChannel → Chat
  | .normal i, c => { st with normalChannels := alInsert i c st.normalChannels }
  | .guild g, c => { st with guildChannels := alInsert g c st.guildChannels }
  | .party pa, c => { st with partyChannels := alInsert pa c st.partyChannels }
  | .priv i, c => { st with privateChannels := alInsert i c st.privateChannels }

/-- Result of a registry-level operation. -/
structure ChatResult where
  st : Chat
  evs : List Ev
  ok : Bool
deriving DecidableEq, Repr

namespace Chat

/-- `Chat::getChannel`: guild and party dispatch on the reserved ids; the
default path first checks static channels (where a bound `canJoin` hook
must allow — a deny yields no channel, without falling through), then
private channels (only when the player is invited). -/
def getChannel (env : HookEnv) (st : Chat) (p : Player) (channelId : Nat) :
    Option (ChanRef × ChatChannel) :=
  if channelId = CHANNEL_GUILD then
    match p.guild with
    | some g =>
      match alFind g.gid st.guildChannels with
      | some ch => some (.guild g.gid, ch)
      | none => none
    | none => none
  else if channelId = CHANNEL_PARTY then
    match p.party with
    | some pa =>
      match alFind pa st.partyChannels with
      | some ch => some (.party pa, ch)
      | none => none
    | none => none
  else
    match alFind channelId st.normalChannels with
    | some ch =>
      if ChatChannel.executeCanJoinEvent env ch p = false then none
      else some (.normal channelId, ch)
    | none =>
      match alFind channelId st.privateChannels with
      | some ch =>
        if PrivateChatChannel.isInvited ch p.guid then some (.priv channelId, ch)
        else none
      | none => none

/-- `Chat::getPrivateChannel`: the first private channel (in key order)
owned by the player. -/
def getPrivateChannel (st : Chat) (p : Player) : Option (Nat × ChatChannel) :=
  st.privateChannels.find? (fun e => e.2.owner = p.guid)

/-- The name `PrivateChatChannel(i, player.getName() + "'s Channel")` is
constructed with; the apostrophe is spelled via its code point. -/
def privateChannelName (p : Player) : String :=
  p.name ++ String.mk [Char.ofNat 39, 's', ' ', 'C', 'h', 'a', 'n', 'n', 'e', 'l']

/-- The scan `for (i = 100; i < 10000; ++i)` in `Chat::createChannel`:
first key in `[i, i + fuel)` absent from `m`. -/
def scanFree {α : Type} (m : List (Nat × α)) : Nat → Nat → Option Nat
  | _, 0 => none
  | i, fuel + 1 => if alContains i m then scanFree m (i + 1) fuel else some i

/-- `Chat::createChannel`.  Fails when the channel already resolves.  The
guild/party paths emplace keyed by guild id / party identity.  The private
path requires premium and no already-owned private channel, then takes the
first free id in [100, 10000), constructing the channel and setting its
owner to the requester. -/
def createChannel (env : HookEnv) (st : Chat) (p : Player) (channelId : Nat) :
    Chat × Option (ChanRef × ChatChannel) :=
  if (getChannel env st p channelId).isSome then (st, none)
  else if channelId = CHANNEL_GUILD then
    match p.guild with
    | some g =>
      let r := alEmplace g.gid { id := channelId, name := g.gname : ChatChannel }
        st.guildChannels
      match alFind g.gid r.1 with
      | some ch => ({ st with guildChannels := r.1 }, some (.guild g.gid, ch))
      | none => ({ st with guildChannels := r.1 }, none)
    | none => (st, none)
  else if channelId = CHANNEL_PARTY then
    match p.party with
    | some pa =>
      let r := alEmplace pa { id := channelId, name := "Party" : ChatChannel }
        st.partyChannels
      match alFind pa r.1 with
      | some ch => ({ st with partyChannels := r.1 }, some (.party pa, ch))
      | none => ({ st with partyChannels := r.1 }, none)
    | none => (st, none)
  else if channelId = CHANNEL_PRIVATE then
    if p.premium = false then (st, none)
    else if (getPrivateChannel st p).isSome then (st, none)
    else
      match scanFree st.privateChannels 100 9900 with
      | some i =>
        let newChannel : ChatChannel :=
          { id := i, name := privateChannelName p, owner := p.guid }
        ({ st with privateChannels := alInsert i newChannel st.privateChannels },
         some (.priv i, newChannel))
      | none => (st, none)
  else (st, none)

/-- `Chat::deleteChannel`: guild/party paths erase the entry keyed by the
player's guild/party; the default path treats the id as a private channel,
closing it (notifying all members) before erasing. -/
def deleteChannel (st : Chat) (p : Player) (channelId : Nat) : ChatResult :=
  if channelId = CHANNEL_GUILD then
    match p.guild with
    | none => ⟨st, [], false⟩
    | some g =>
      match alFind g.gid st.guildChannels with
      | none => ⟨st, [], false⟩
      | some _ =>
        ⟨{ st with guildChannels := alErase g.gid st.guildChannels }, [], true⟩
  else if channelId = CHANNEL_PARTY then
    match p.party with
    | none => ⟨st, [], false⟩
    | some pa =>
      match alFind pa st.partyChannels with
      | none => ⟨st, [], false⟩
      | some _ =>
        ⟨{ st with partyChannels := alErase pa st.partyChannels }, [], true⟩
  else
    match alFind channelId st.privateChannels with
    | none => ⟨st, [], false⟩
    | some ch =>
      ⟨{ st with privateChannels := alErase channelId st.privateChannels },
       PrivateChatChannel.closeChannel ch, true⟩

/-- `Chat::addUserToChannel`: resolve then delegate to
`ChatChannel::addUser`, writing the mutated channel back. -/
def addUserToChannel (env : HookEnv) (st : Chat) (p : Player) (channelId : Nat) :
    Chat × List Ev × Option ChanRef :=
  match getChannel env st p channelId with
  | none => (st, [], none)
  | some (ref, ch) =>
    let r := ChatChannel.addUser env ch p
    if r.ok then (setChan st ref r.chan, r.evs, some ref)
    else (st, r.evs, none)

/-- `Chat::removeUserFromChannel`: resolve, delegate to
`ChatChannel::removeUser`; after a successful removal, when the removed
player's guid equals the channel's owner, delete that channel through
`Chat::deleteChannel`. -/
def removeUserFromChannel (env : HookEnv) (st : Chat) (p : Player)
    (channelId : Nat) : ChatResult :=
  match getChannel env st p channelId with
  | none => ⟨st, [], false⟩
  | some (ref, ch) =>
    let r := ChatChannel.removeUser env ch p
    if r.ok = false then ⟨st, [], false⟩
    else
      let st1 := setChan st ref r.chan
      if r.chan.owner = p.guid then
        let d := deleteChannel st1 p channelId
        ⟨d.st, r.evs ++ d.evs, true⟩
      else ⟨st1, r.evs, true⟩

/-- One category loop of `Chat::removeUserFromAllChannels` for the
reference-iterated collections (normal, party, guild): every channel gets
`removeUser` applied in place. -/
def removeAllIn (env : HookEnv) (p : Player) :
    List (Nat × ChatChannel) → List (Nat × ChatChannel) × List Ev
  | [] => ([], [])
  | (k, ch) :: rest =>
    let r := ChatChannel.removeUser env ch p
    let t := removeAllIn env p rest
    ((k, r.chan) :: t.1, r.evs ++ t.2)

/-- The private-channel loop of `Chat::removeUserFromAllChannels`.  The
C++ iterates `for (auto [id, channel] : privateChannels)` — **by value** —
so `removeInvite` and `removeUser` mutate a per-iteration copy and never
the registry entry (their notifications still reach real players through
the copied pointers).  When the copy's owner is the leaver, the copy is
closed and `privateChannels.clear()` erases the whole collection.  The
model walks the iteration snapshot carrying the registry value; continued
iteration after `clear()` (undefined behaviour in C++, as the range
iterators are invalidated) is modelled as walking on over the snapshot
with no further registry effect. -/
def removeAllPriv (env : HookEnv) (p : Player) :
    List (Nat × ChatChannel) → List (Nat × ChatChannel) →
    List (Nat × ChatChannel) × List Ev
  | [], reg => (reg, [])
  | (_, ch) :: rest, reg =>
    let c1 := (PrivateChatChannel.removeInvite ch p.guid).1
    let r := ChatChannel.removeUser env c1 p
    if r.chan.owner = p.guid then
      let evs1 := PrivateChatChannel.closeChannel r.chan
      let t := removeAllPriv env p rest []
      (t.1, r.evs ++ evs1 ++ t.2)
    else
      let t := removeAllPriv env p rest reg
      (t.1, r.evs ++ t.2)

/-- `Chat::removeUserFromAllChannels`: normal, party and guild channels are
iterated by reference and mutated in place; the private loop is the
by-value iteration of `removeAllPriv`. -/
def removeUserFromAllChannels (env : HookEnv) (st : Chat) (p : Player) :
    Chat × List Ev :=
  let n := removeAllIn env p st.normalChannels
  let pa := removeAllIn env p st.partyChannels
  let g := removeAllIn env p st.guildChannels
  let pr := removeAllPriv env p st.privateChannels st.privateChannels
  ({ normalChannels := n.1, partyChannels := pa.1, guildChannels := g.1,
     privateChannels := pr.1 },
   n.2 ++ pa.2 ++ g.2 ++ pr.2)

/-- The speak-type coercion performed by `Chat::talkToChannel` before the
`onSpeak` hook: on the guild channel a rank level above 1 yields the
officer class and anything else the plain channel class; the party class is
forced when the requested channel id is the reserved `CHANNEL_PRIVATE` or
`CHANNEL_PARTY` id. -/
def coerceSpeakType (p : Player) (channelId t : Nat) : Nat :=
  if channelId = CHANNEL_GUILD then
    match p.rankLevel with
    | some l =>
      if 1 < l then TALKTYPE_CHANNEL_O
      else if t ≠ TALKTYPE_CHANNEL_Y then TALKTYPE_CHANNEL_Y
      else t
    | none => if t ≠ TALKTYPE_CHANNEL_Y then TALKTYPE_CHANNEL_Y else t
  else if t ≠ TALKTYPE_CHANNEL_Y ∧
      (channelId = CHANNEL_PRIVATE ∨ channelId = CHANNEL_PARTY) then
    TALKTYPE_CHANNEL_Y
  else t

/-- `Chat::talkToChannel`: resolve, coerce the speak type, consult the
`onSpeak` hook (which may deny or override the type), then deliver through
`ChatChannel::talk`. -/
def talkToChannel (env : HookEnv) (st : Chat) (p : Player) (t : Nat)
    (text : String) (channelId : Nat) : Bool × List Ev :=
  match getChannel env st p channelId with
  | none => (false, [])
  | some (_, ch) =>
    let t1 := coerceSpeakType p channelId t
    let r := ChatChannel.executeOnSpeakEvent env ch p t1 text
    if r.1 = false then (false, [])
    else ChatChannel.talk ch p r.2 text

/-- A parsed `channelNode` record of `data/chatchannels/chatchannels.xml`
(the config surface of §6 of the spec): id, name, public flag, and the
script attribute — absent, present but failing to load, or loaded yielding
the four hook event ids. -/
structure ChannelDef where
  id : Nat
  name : String
  isPublic : Bool
  script : Option (Option (Int × Int × Int × Int))
deriving Repr

/-- The in-place reconfiguration `Chat::load` performs on a channel: name
and public flag are replaced, and when the script attribute loads, the four
hook bindings are replaced (order in the tuple: `onSpeak`, `canJoin`,
`onJoin`, `onLeave`). -/
def applyDef (ch : ChatChannel) (d : ChannelDef) : ChatChannel :=
  let c1 := { ch with publicChannel := d.isPublic, name := d.name }
  match d.script with
  | some (some h) =>
    { c1 with onSpeakEvent := h.1, canJoinEvent := h.2.1, onJoinEvent := h.2.2.1, onLeaveEvent := h.2.2.2 }
  | _ => c1

/-- The member re-add loop of `Chat::load`: the moved-out users map is
walked in key order and each player is pushed through
`ChatChannel::addUser` (the normal join path). -/
def readdUsers (env : HookEnv) :
    List (Nat × Player) → ChatChannel → ChatChannel × List Ev
  | [], ch => (ch, [])
  | (_, q) :: rest, ch =>
    let r := ChatChannel.addUser env ch q
    let t := readdUsers env rest r.chan
    (t.1, r.evs ++ t.2)

/-- One `channelNode` step of `Chat::load`.  An already-registered channel
is mutated in place (`applyDef`) and its members — moved out of the users
map — are re-added through `readdUsers`; an unknown id registers a freshly
constructed channel. -/
def loadChannelNode (env : HookEnv) (st : Chat) (d : ChannelDef) :
    Chat × List Ev :=
  match alFind d.id st.normalChannels with
  | some ch =>
    let c1 := applyDef ch d
    let r := readdUsers env c1.users { c1 with users := [] }
    ({ st with normalChannels := alInsert d.id r.1 st.normalChannels }, r.2)
  | none =>
    let c1 := applyDef { id := d.id, name := d.name } d
    ({ st with normalChannels := alInsert d.id c1 st.normalChannels }, [])

/-- `Chat::load` over the already-parsed channel records. -/
def load (env : HookEnv) (st : Chat) (ds : List ChannelDef) : Chat × List Ev :=
  match ds with
  | [] => (st, [])
  | d :: rest =>
    let r := loadChannelNode env st d
    let t := load env r.1 rest
    (t.1, r.2 ++ t.2)

end Chat

/-! ### Concrete fixtures used by witnesses and counterexamples -/

/-- A hook environment whose guard never trips and whose callbacks allow
everything. -/
def hookAllowAll : HookEnv :=
  { reserveOk := true, evalBool := fun _ _ => true,
    evalSpeak := fun _ _ _ _ => .retBool true }

/-- A hook environment whose nesting guard trips on every call. -/
def hookGuardTripped : HookEnv :=
  { reserveOk := false, evalBool := fun _ _ => true,
    evalSpeak := fun _ _ _ _ => .retBool true }

/-- A hook environment whose `onSpeak` callback returns the number 9. -/
def hookSpeakNum9 : HookEnv :=
  { reserveOk := true, evalBool := fun _ _ => true,
    evalSpeak := fun _ _ _ _ => .retNum 9 }

def alice : Player :=
  { pid := 1, guid := 11, name := "Alice", premium := true, guild := none,
    party := none, rankLevel := none }

def bob : Player :=
  { pid := 2, guid := 22, name := "Bob", premium := false, guild := none,
    party := none, rankLevel := none }

def carol : Player :=
  { pid := 3, guid := 33, name := "Carol", premium := true, guild := none,
    party := none, rankLevel := none }

/-- A guilded player (for the reload / message-of-the-day scenario). -/
def gwen : Player :=
  { pid := 2, guid := 22, name := "Gwen", premium := false,
    guild := some { gid := 5, gname := "G", motd := "Welcome" },
    party := none, rankLevel := none }

/-- The channel `Chat::createChannel` builds for `alice` at the first free
private id. -/
def aliceChan : ChatChannel :=
  { id := 100, name := Chat.privateChannelName alice, owner := alice.guid }

/-- Alice's populated private channel (members alice and bob). -/
def chA : ChatChannel :=
  { id := 100, name := "A", owner := alice.guid,
    users := [(1, alice), (2, bob)], invites := [(22, bob)] }

/-- Carol's private channel, with alice as member and invitee. -/
def chB : ChatChannel :=
  { id := 101, name := "C", owner := carol.guid,
    users := [(1, alice), (3, carol)], invites := [(11, alice)] }

/-- Registry holding both alice's and carol's private channels. -/
def stOwner : Chat := { privateChannels := [(100, chA), (101, chB)] }

/-- Registry holding only carol's private channel. -/
def stNoOwner : Chat := { privateChannels := [(101, chB)] }

/-- A private channel with bob invited and a member (for `excludePlayer`). -/
def chEx : ChatChannel :=
  { id := 100, name := "A", owner := alice.guid,
    users := [(2, bob)], invites := [(22, bob)] }

/-- Alice's private channel with alice as sole member (hooks unbound). -/
def chPriv100 : ChatChannel :=
  { id := 100, name := "A", owner := alice.guid, users := [(1, alice)] }

def stPrivTalk : Chat := { privateChannels := [(100, chPriv100)] }

/-- Alice's private channel with a bound `onSpeak` hook (event id 5). -/
def chHook : ChatChannel :=
  { id := 100, name := "A", owner := alice.guid, users := [(1, alice)],
    onSpeakEvent := 5 }

def stHook : Chat := { privateChannels := [(100, chHook)] }

/-- Alice's private channel with members alice and bob (for the ownership
cascade). -/
def chC3 : ChatChannel :=
  { id := 100, name := "A", owner := alice.guid,
    users := [(1, alice), (2, bob)] }

def stC3 : Chat := { privateChannels := [(100, chC3)] }

/-- A populated static channel at the guild-channel id (for reload). -/
def chGuildW : ChatChannel := { id := 0, name := "Guild", users := [(2, gwen)] }

def stW : Chat := { normalChannels := [(0, chGuildW)] }

/-- Reload record replacing name, public flag, and all four hooks. -/
def dW : Chat.ChannelDef :=
  { id := 0, name := "NewName", isPublic := false,
    script := some (some (10, 11, 12, 13)) }

/-- A generic occupied private channel (owner guid 7) for the exhaustion
states. -/
def fullChan (i : Nat) : ChatChannel := { id := i, name := "x", owner := 7 }

/-- `n` consecutive occupied private-channel slots starting at id `i`. -/
def fullPriv : Nat → Nat → List (Nat × ChatChannel)
  | _, 0 => []
  | i, n + 1 => (i, fullChan i) :: fullPriv (i + 1) n

/-- Registry in which every private id except 100 is taken. -/
def stMinusOne : Chat := { privateChannels := fullPriv 101 9899 }

/-- Well-formedness of a users ledger: strictly ascending keys and each
stored player's id equal to its key (`users[player.getID()] = &player`). -/
def usersWF (m : List (Nat × Player)) : Prop :=
  alSorted m ∧ ∀ e ∈ m, (e : Nat × Player).2.pid = e.1

/-! ### Association-list lemmas -/

theorem alFind_alInsert_self {α : Type} (k : Nat) (v : α) (m : List (Nat × α)) :
    alFind k (alInsert k v m) = some v := by
  induction m with
  | nil => simp [alInsert, alFind]
  | cons e rest ih =>
    by_cases h1 : k < e.1
    · simp [alInsert, h1, alFind]
    · by_cases h2 : k = e.1
      · simp [alInsert, h1, h2, alFind]
      · have hne : e.1 ≠ k := fun h => h2 h.symm
        simp [alInsert, h1, h2, alFind, hne, ih]

theorem alFind_alInsert_ne {α : Type} (j k : Nat) (v : α) (m : List (Nat × α))
    (h : j ≠ k) : alFind j (alInsert k v m) = alFind j m := by
  have hkj : k ≠ j := Ne.symm h
  induction m with
  | nil => simp [alInsert, alFind, hkj]
  | cons e rest ih =>
    by_cases h1 : k < e.1
    · simp [alInsert, h1, alFind, hkj]
    · by_cases h2 : k = e.1
      · have he1j : e.1 ≠ j := h2 ▸ hkj
        rw [alInsert, if_neg h1, if_pos h2]
        simp [alFind, hkj, he1j]
      · simp only [alInsert, if_neg h1, if_neg h2, alFind]
        by_cases h3 : e.1 = j
        · simp [h3]
        · simp [h3, ih]

theorem alContains_alInsert_self {α : Type} (k : Nat) (v : α)
    (m : List (Nat × α)) : alContains k (alInsert k v m) = true := by
  simp [alContains, alFind_alInsert_self]

theorem alContains_alInsert_ne {α : Type} (j k : Nat) (v : α)
    (m : List (Nat × α)) (h : j ≠ k) :
    alContains j (alInsert k v m) = alContains j m := by
  simp [alContains, alFind_alInsert_ne _ _ _ _ h]

theorem alFind_eq_none_of_absent {α : Type} (k : Nat) (m : List (Nat × α))
    (h : ∀ e ∈ m, (e : Nat × α).1 ≠ k) : alFind k m = none := by
  induction m with
  | nil => rfl
  | cons e rest ih =>
    have h1 : e.1 ≠ k := h e (by simp)
    simp only [alFind, if_neg h1]
    exact ih (fun e2 he2 => h e2 (by simp [he2]))

theorem alContains_mem {α : Type} (k : Nat) (m : List (Nat × α))
    (h : alContains k m = true) : ∃ v, (k, v) ∈ m := by
  induction m with
  | nil => simp [alContains, alFind] at h
  | cons e rest ih =>
    by_cases h1 : e.1 = k
    · exact ⟨e.2, by simp [← h1]⟩
    · simp only [alContains, alFind, if_neg h1] at h
      obtain ⟨v, hv⟩ := ih h
      exact ⟨v, by simp [hv]⟩

theorem alFind_alErase_ne {α : Type} (j k : Nat) (m : List (Nat × α))
    (h : j ≠ k) : alFind j (alErase k m) = alFind j m := by
  have hkj : k ≠ j := Ne.symm h
  induction m with
  | nil => rfl
  | cons e rest ih =>
    by_cases h1 : e.1 = k
    · have h2 : e.1 ≠ j := h1 ▸ hkj
      simp [alErase, h1, alFind, h2, hkj]
    · simp only [alErase, if_neg h1, alFind]
      by_cases h2 : e.1 = j
      · simp [h2]
      · simp [h2, ih]

theorem alFind_alErase_self {α : Type} (k : Nat) (m : List (Nat × α))
    (hs : alSorted m) : alFind k (alErase k m) = none := by
  induction m with
  | nil => rfl
  | cons e rest ih =>
    simp only [alSorted, List.pairwise_cons] at hs
    by_cases h1 : e.1 = k
    · subst h1
      rw [show alErase e.1 (e :: rest) = rest from by simp [alErase]]
      exact alFind_eq_none_of_absent _ _
        (fun e2 he2 => ne_of_gt (hs.1 e2 he2))
    · simp only [alErase, if_neg h1, alFind, if_neg h1]
      exact ih hs.2

theorem alContains_alErase_self {α : Type} (k : Nat) (m : List (Nat × α))
    (hs : alSorted m) : alContains k (alErase k m) = false := by
  simp [alContains, alFind_alErase_self _ _ hs]

theorem mem_alInsert {α : Type} (k : Nat) (v : α) (m : List (Nat × α))
    (e : Nat × α) (h : e ∈ alInsert k v m) : e = (k, v) ∨ e ∈ m := by
  induction m with
  | nil => simp [alInsert] at h; exact Or.inl h
  | cons f rest ih =>
    by_cases h1 : k < f.1
    · rw [alInsert, if_pos h1] at h
      rcases List.mem_cons.mp h with h | h
      · exact Or.inl h
      · exact Or.inr h
    · by_cases h2 : k = f.1
      · rw [alInsert, if_neg h1, if_pos h2] at h
        rcases List.mem_cons.mp h with h | h
        · exact Or.inl h
        · exact Or.inr (by simp [h])
      · rw [alInsert, if_neg h1, if_neg h2] at h
        rcases List.mem_cons.mp h with h | h
        · exact Or.inr (by simp [h])
        · rcases ih h with h | h
          · exact Or.inl h
          · exact Or.inr (by simp [h])

theorem alSorted_alInsert {α : Type} (k : Nat) (v : α) (m : List (Nat × α))
    (hs : alSorted m) : alSorted (alInsert k v m) := by
  induction m with
  | nil => simp [alInsert, alSorted]
  | cons e rest ih =>
    simp only [alSorted, List.pairwise_cons] at hs
    by_cases h1 : k < e.1
    · rw [alInsert, if_pos h1]
      simp only [alSorted, List.pairwise_cons]
      refine ⟨?_, hs.1, hs.2⟩
      intro e2 he2
      rcases List.mem_cons.mp he2 with h | h
      · rw [h]; exact h1
      · exact Nat.lt_trans h1 (hs.1 e2 h)
    · by_cases h2 : k = e.1
      · rw [alInsert, if_neg h1, if_pos h2]
        simp only [alSorted, List.pairwise_cons]
        exact ⟨fun e2 he2 => h2 ▸ hs.1 e2 he2, hs.2⟩
      · rw [alInsert, if_neg h1, if_neg h2]
        simp only [alSorted, List.pairwise_cons]
        refine ⟨?_, ih hs.2⟩
        intro e2 he2
        rcases mem_alInsert k v rest e2 he2 with h | h
        · rw [h]; omega
        · exact hs.1 e2 h

/-! ### Lemmas about the free-id scan -/

theorem scanFree_eq_none {α : Type} (m : List (Nat × α)) :
    ∀ fuel i, (∀ j, i ≤ j → j < i + fuel → alContains j m = true) →
    Chat.scanFree m i fuel = none := by
  intro fuel
  induction fuel with
  | zero => intro i _; rfl
  | succ n ih =>
    intro i h
    have hc : alContains i m = true := h i le_rfl (by omega)
    rw [Chat.scanFree, if_pos hc]
    exact ih (i + 1) (fun j h1 h2 => h j (by omega) (by omega))

theorem scanFree_eq_some {α : Type} (m : List (Nat × α)) :
    ∀ fuel i f, i ≤ f → f < i + fuel → alContains f m = false →
    (∀ j, i ≤ j → j < f → alContains j m = true) →
    Chat.scanFree m i fuel = some f := by
  intro fuel
  induction fuel with
  | zero => intro i f h1 h2; omega
  | succ n ih =>
    intro i f h1 h2 h3 h4
    by_cases hif : i = f
    · subst hif
      rw [Chat.scanFree, if_neg (by simp [h3])]
    · have hc : alContains i m = true := h4 i le_rfl (by omega)
      rw [Chat.scanFree, if_pos hc]
      exact ih (i + 1) f (by omega) (by omega) h3
        (fun j hj1 hj2 => h4 j (by omega) hj2)

theorem scanFree_some_spec {α : Type} (m : List (Nat × α)) :
    ∀ fuel i f, Chat.scanFree m i fuel = some f →
    i ≤ f ∧ f < i + fuel ∧ alContains f m = false ∧
    ∀ j, i ≤ j → j < f → alContains j m = true := by
  intro fuel
  induction fuel with
  | zero => intro i f h; simp [Chat.scanFree] at h
  | succ n ih =>
    intro i f h
    rw [Chat.scanFree] at h
    by_cases hc : alContains i m = true
    · rw [if_pos hc] at h
      obtain ⟨g1, g2, g3, g4⟩ := ih (i + 1) f h
      refine ⟨by omega, by omega, g3, ?_⟩
      intro j hj1 hj2
      by_cases hji : j = i
      · exact hji ▸ hc
      · exact g4 j (by omega) hj2
    · rw [if_neg hc] at h
      have hf : f = i := by
        have := Option.some.inj h
        omega
      subst hf
      exact ⟨le_rfl, by omega, by simpa using hc, fun j h1 h2 => by omega⟩

/-! ### Lemmas about the exhaustion fixture -/

theorem alFind_fullPriv : ∀ (n i k : Nat),
    alFind k (fullPriv i n) =
      if i ≤ k ∧ k < i + n then some (fullChan k) else none := by
  intro n
  induction n with
  | zero =>
    intro i k
    rw [if_neg (by omega)]
    rfl
  | succ m ih =>
    intro i k
    rw [fullPriv, alFind]
    by_cases h : i = k
    · subst h
      rw [if_pos rfl, if_pos (by omega)]
    · rw [if_neg h, ih (i + 1) k]
      by_cases h2 : i + 1 ≤ k ∧ k < i + 1 + m
      · rw [if_pos h2, if_pos (by omega)]
      · rw [if_neg h2, if_neg (by omega)]

theorem alContains_fullPriv (n i k : Nat) :
    alContains k (fullPriv i n) = decide (i ≤ k ∧ k < i + n) := by
  rw [alContains, alFind_fullPriv]
  by_cases h : i ≤ k ∧ k < i + n
  · rw [if_pos h]
    simp [h]
  · rw [if_neg h]
    simp [h]

theorem find?_owner_fullPriv (g : Nat) (hg : g ≠ 7) :
    ∀ n i, (fullPriv i n).find? (fun e => e.2.owner = g) = none := by
  intro n
  induction n with
  | zero => intro i; rfl
  | succ m ih =>
    intro i
    rw [fullPriv, List.find?]
    have hd : decide ((i, fullChan i).2.owner = g) = false := by
      simp [fullChan]
      exact Ne.symm hg
    rw [hd]
    exact ih (i + 1)

/-! ### Shape lemmas for the channel operations -/

theorem addUser_already_member (env : HookEnv) (ch : ChatChannel) (p : Player)
    (h : alContains p.pid ch.users = true) :
    ChatChannel.addUser env ch p = ⟨ch, [], false⟩ := by
  rw [ChatChannel.addUser, if_pos h]

theorem addUser_ok_imp (env : HookEnv) (ch : ChatChannel) (p : Player)
    (h : (ChatChannel.addUser env ch p).ok = true) :
    alContains p.pid ch.users = false ∧
    ChatChannel.executeOnJoinEvent env ch p = true ∧
    (ChatChannel.addUser env ch p).chan =
      { ch with users := alInsert p.pid p ch.users } := by
  by_cases h1 : alContains p.pid ch.users = true
  · rw [addUser_already_member env ch p h1] at h
    simp at h
  · have h1f : alContains p.pid ch.users = false := by simpa using h1
    by_cases h2 : ChatChannel.executeOnJoinEvent env ch p = false
    · rw [ChatChannel.addUser, if_neg (by simp [h1f]), if_pos h2] at h
      simp at h
    · have h2t : ChatChannel.executeOnJoinEvent env ch p = true := by
        simpa using h2
      refine ⟨h1f, h2t, ?_⟩
      rw [ChatChannel.addUser, if_neg (by simp [h1f]), if_neg (by simp [h2t])]

theorem addUser_success_eq (env : HookEnv) (ch : ChatChannel) (p : Player)
    (h1 : alContains p.pid ch.users = false)
    (h2 : ChatChannel.executeOnJoinEvent env ch p = true) :
    ChatChannel.addUser env ch p =
      ⟨{ ch with users := alInsert p.pid p ch.users },
       (if ch.id = CHANNEL_GUILD then
          match p.guild with
          | some g => if g.motd ≠ "" then [Ev.guildMotd p.pid] else []
          | none => []
        else []) ++
       (if ch.publicChannel = false then
          ch.users.map (fun e => Ev.channelEvent e.2.pid ch.id p.name .join)
        else []), true⟩ := by
  rw [ChatChannel.addUser, if_neg (by simp [h1]), if_neg (by simp [h2])]

theorem removeUser_mem_eq (env : HookEnv) (ch : ChatChannel) (p : Player)
    (v : Player) (h : alFind p.pid ch.users = some v) :
    ChatChannel.removeUser env ch p =
      ⟨{ ch with users := alErase p.pid ch.users },
       if ch.publicChannel = false then
         (alErase p.pid ch.users).map
           (fun e => Ev.channelEvent e.2.pid ch.id p.name .leave)
       else [], true⟩ := by
  rw [ChatChannel.removeUser, h]

theorem removeUser_not_mem (env : HookEnv) (ch : ChatChannel) (p : Player)
    (h : alFind p.pid ch.users = none) :
    ChatChannel.removeUser env ch p = ⟨ch, [], false⟩ := by
  rw [ChatChannel.removeUser, h]

theorem executeOnJoinEvent_congr (env : HookEnv) (c1 c2 : ChatChannel)
    (p : Player) (h : c1.onJoinEvent = c2.onJoinEvent) :
    ChatChannel.executeOnJoinEvent env c1 p =
      ChatChannel.executeOnJoinEvent env c2 p := by
  rw [ChatChannel.executeOnJoinEvent, ChatChannel.executeOnJoinEvent, h]

theorem alContains_some {α : Type} (k : Nat) (m : List (Nat × α))
    (h : alContains k m = true) : ∃ v, alFind k m = some v := by
  simpa [alContains, Option.isSome_iff_exists] using h

theorem chanAt_setChan_self (st : Chat) (r : ChanRef) (c : ChatChannel) :
    chanAt (setChan st r c) r = some c := by
  cases r <;> simp [chanAt, setChan, alFind_alInsert_self]

/-- Pushing a resolved channel through `Chat::removeUserFromChannel`. -/
theorem removeUserFromChannel_resolved (env : HookEnv) (st : Chat)
    (p : Player) (channelId : Nat) (r : ChanRef) (ch : ChatChannel)
    (hres : Chat.getChannel env st p channelId = some (r, ch)) :
    Chat.removeUserFromChannel env st p channelId =
      (if (ChatChannel.removeUser env ch p).ok = false then ⟨st, [], false⟩
       else if (ChatChannel.removeUser env ch p).chan.owner = p.guid then
         ⟨(Chat.deleteChannel
             (setChan st r (ChatChannel.removeUser env ch p).chan) p channelId).st,
          (ChatChannel.removeUser env ch p).evs ++
            (Chat.deleteChannel
              (setChan st r (ChatChannel.removeUser env ch p).chan) p channelId).evs,
          true⟩
       else ⟨setChan st r (ChatChannel.removeUser env ch p).chan,
             (ChatChannel.removeUser env ch p).evs, true⟩) := by
  rw [Chat.removeUserFromChannel, hres]

/-- Reduction of `Chat::deleteChannel` on the default (private) path when
the entry exists. -/
theorem deleteChannel_priv_found (st : Chat) (p : Player) (channelId : Nat)
    (ch : ChatChannel)
    (h1 : channelId ≠ CHANNEL_GUILD) (h2 : channelId ≠ CHANNEL_PARTY)
    (hf : alFind channelId st.privateChannels = some ch) :
    Chat.deleteChannel st p channelId =
      ⟨{ st with privateChannels := alErase channelId st.privateChannels },
       PrivateChatChannel.closeChannel ch, true⟩ := by
  rw [Chat.deleteChannel, if_neg h1, if_neg h2, hf]

theorem addUser_denied (env : HookEnv) (ch : ChatChannel) (p : Player)
    (h1 : alContains p.pid ch.users = false)
    (h2 : ChatChannel.executeOnJoinEvent env ch p = false) :
    ChatChannel.addUser env ch p = ⟨ch, [], false⟩ := by
  rw [ChatChannel.addUser, if_neg (by simp [h1]), if_pos h2]

theorem addUser_chan_cases (env : HookEnv) (ch : ChatChannel) (p : Player) :
    (ChatChannel.addUser env ch p).chan = ch ∨
    (alContains p.pid ch.users = false ∧
      (ChatChannel.addUser env ch p).chan =
        { ch with users := alInsert p.pid p ch.users }) := by
  by_cases h1 : alContains p.pid ch.users = true
  · rw [addUser_already_member env ch p h1]
    exact Or.inl rfl
  · have h1f : alContains p.pid ch.users = false := by simpa using h1
    by_cases h2 : ChatChannel.executeOnJoinEvent env ch p = false
    · rw [addUser_denied env ch p h1f h2]
      exact Or.inl rfl
    · rw [addUser_success_eq env ch p h1f (by simpa using h2)]
      exact Or.inr ⟨h1f, rfl⟩

theorem addUser_preserves (env : HookEnv) (ch : ChatChannel) (p : Player) :
    (ChatChannel.addUser env ch p).chan.id = ch.id ∧
    (ChatChannel.addUser env ch p).chan.name = ch.name ∧
    (ChatChannel.addUser env ch p).chan.publicChannel = ch.publicChannel ∧
    (ChatChannel.addUser env ch p).chan.canJoinEvent = ch.canJoinEvent ∧
    (ChatChannel.addUser env ch p).chan.onJoinEvent = ch.onJoinEvent ∧
    (ChatChannel.addUser env ch p).chan.onLeaveEvent = ch.onLeaveEvent ∧
    (ChatChannel.addUser env ch p).chan.onSpeakEvent = ch.onSpeakEvent := by
  rcases addUser_chan_cases env ch p with h | ⟨-, h⟩ <;> rw [h] <;>
    exact ⟨rfl, rfl, rfl, rfl, rfl, rfl, rfl⟩

theorem readdUsers_cons (env : HookEnv) (k : Nat) (q : Player)
    (rest : List (Nat × Player)) (ch : ChatChannel) :
    Chat.readdUsers env ((k, q) :: rest) ch =
      ((Chat.readdUsers env rest (ChatChannel.addUser env ch q).chan).1,
       (ChatChannel.addUser env ch q).evs ++
         (Chat.readdUsers env rest (ChatChannel.addUser env ch q).chan).2) := by
  rw [Chat.readdUsers]

theorem readdUsers_config (env : HookEnv) :
    ∀ (l : List (Nat × Player)) (ch : ChatChannel),
    (Chat.readdUsers env l ch).1.id = ch.id ∧
    (Chat.readdUsers env l ch).1.name = ch.name ∧
    (Chat.readdUsers env l ch).1.publicChannel = ch.publicChannel ∧
    (Chat.readdUsers env l ch).1.canJoinEvent = ch.canJoinEvent ∧
    (Chat.readdUsers env l ch).1.onJoinEvent = ch.onJoinEvent ∧
    (Chat.readdUsers env l ch).1.onLeaveEvent = ch.onLeaveEvent ∧
    (Chat.readdUsers env l ch).1.onSpeakEvent = ch.onSpeakEvent := by
  intro l
  induction l with
  | nil => intro ch; exact ⟨rfl, rfl, rfl, rfl, rfl, rfl, rfl⟩
  | cons e rest ih =>
    intro ch
    obtain ⟨k, q⟩ := e
    rw [readdUsers_cons]
    obtain ⟨i1, i2, i3, i4, i5, i6, i7⟩ :=
      ih (ChatChannel.addUser env ch q).chan
    obtain ⟨a1, a2, a3, a4, a5, a6, a7⟩ := addUser_preserves env ch q
    exact ⟨i1.trans a1, i2.trans a2, i3.trans a3, i4.trans a4,
      i5.trans a5, i6.trans a6, i7.trans a7⟩

/-- Membership after the re-add loop: a key is a member exactly when it
was in the ledger being replayed (or already present) and the channel's
`onJoin` hook admits the stored player. -/
theorem readdUsers_mem (env : HookEnv) :
    ∀ (l : List (Nat × Player)) (ch : ChatChannel),
    alSorted l → (∀ e ∈ l, (e : Nat × Player).2.pid = e.1) →
    (∀ e ∈ l, alContains (e : Nat × Player).1 ch.users = false) →
    ∀ k, alContains k (Chat.readdUsers env l ch).1.users = true ↔
      (alContains k ch.users = true ∨
        ∃ q, (k, q) ∈ l ∧ ChatChannel.executeOnJoinEvent env ch q = true) := by
  intro l
  induction l with
  | nil =>
    intro ch _ _ _ k
    simp [Chat.readdUsers]
  | cons e rest ih =>
    intro ch hsort hpid hdisj k
    obtain ⟨k0, q0⟩ := e
    simp only [alSorted, List.pairwise_cons] at hsort
    have hq0pid : q0.pid = k0 := hpid (k0, q0) (by simp)
    have hq0abs : alContains q0.pid ch.users = false := by
      rw [hq0pid]
      exact hdisj (k0, q0) (by simp)
    rw [readdUsers_cons]
    by_cases hj : ChatChannel.executeOnJoinEvent env ch q0 = true
    · -- the head is re-admitted
      have hadd := addUser_success_eq env ch q0 hq0abs hj
      have hchan : (ChatChannel.addUser env ch q0).chan =
          { ch with users := alInsert q0.pid q0 ch.users } := by rw [hadd]
      rw [hchan]
      have hih := ih { ch with users := alInsert q0.pid q0 ch.users }
        hsort.2 (fun e he => hpid e (by simp [he]))
        (fun e he => by
          have hne : (e : Nat × Player).1 ≠ q0.pid := by
            rw [hq0pid]
            exact ne_of_gt (hsort.1 e he)
          rw [show ({ ch with users := alInsert q0.pid q0 ch.users }
              : ChatChannel).users = alInsert q0.pid q0 ch.users from rfl,
            alContains_alInsert_ne _ _ _ _ hne]
          exact hdisj e (by simp [he])) k
      rw [hih]
      have hcongr : ∀ q, ChatChannel.executeOnJoinEvent env
          { ch with users := alInsert q0.pid q0 ch.users } q =
          ChatChannel.executeOnJoinEvent env ch q :=
        fun q => executeOnJoinEvent_congr env _ _ q rfl
      constructor
      · rintro (hin | ⟨q, hq1, hq2⟩)
        · rw [show ({ ch with users := alInsert q0.pid q0 ch.users }
              : ChatChannel).users = alInsert q0.pid q0 ch.users from rfl] at hin
          by_cases hk : k = q0.pid
          · right
            refine ⟨q0, ?_, hj⟩
            rw [hk, hq0pid]
            simp
          · rw [alContains_alInsert_ne _ _ _ _ hk] at hin
            exact Or.inl hin
        · right
          exact ⟨q, by simp [hq1], (hcongr q) ▸ hq2⟩
      · rintro (hin | ⟨q, hq1, hq2⟩)
        · left
          rw [show ({ ch with users := alInsert q0.pid q0 ch.users }
              : ChatChannel).users = alInsert q0.pid q0 ch.users from rfl]
          by_cases hk : k = q0.pid
          · exfalso
            have hcontra : alContains k0 ch.users = false :=
              hdisj (k0, q0) (by simp)
            rw [hk, hq0pid, hcontra] at hin
            exact Bool.noConfusion hin
          · rw [alContains_alInsert_ne _ _ _ _ hk]
            exact hin
        · rcases List.mem_cons.mp hq1 with hq | hq
          · left
            have hk : k = k0 ∧ q = q0 := by
              have := Prod.mk.injEq k q k0 q0 ▸ hq
              exact ⟨this.1, this.2⟩
            rw [show ({ ch with users := alInsert q0.pid q0 ch.users }
                : ChatChannel).users = alInsert q0.pid q0 ch.users from rfl,
              hk.1, ← hq0pid]
            exact alContains_alInsert_self _ _ _
          · right
            exact ⟨q, hq, (hcongr q).symm ▸ hq2⟩
    · -- the head is rejected by the hook
      have hjf : ChatChannel.executeOnJoinEvent env ch q0 = false := by
        simpa using hj
      have hadd := addUser_denied env ch q0 hq0abs hjf
      have hchan : (ChatChannel.addUser env ch q0).chan = ch := by rw [hadd]
      rw [hchan]
      rw [ih ch hsort.2 (fun e he => hpid e (by simp [he]))
        (fun e he => hdisj e (by simp [he])) k]
      constructor
      · rintro (hin | ⟨q, hq1, hq2⟩)
        · exact Or.inl hin
        · exact Or.inr ⟨q, by simp [hq1], hq2⟩
      · rintro (hin | ⟨q, hq1, hq2⟩)
        · exact Or.inl hin
        · rcases List.mem_cons.mp hq1 with hq | hq
          · exfalso
            have hqq : q = q0 := (Prod.mk.injEq k q k0 q0 ▸ hq).2
            rw [hqq, hjf] at hq2
            exact Bool.noConfusion hq2
          · exact Or.inr ⟨q, hq, hq2⟩

/-- The guild message-of-the-day task re-fires during the re-add loop for
every replayed member with a non-empty guild motd whom the `onJoin` hook
admits, provided the channel is the guild channel. -/
theorem readdUsers_motd (env : HookEnv) :
    ∀ (l : List (Nat × Player)) (ch : ChatChannel),
    (∀ e ∈ l, (e : Nat × Player).2.pid = e.1) →
    (∀ e ∈ l, alContains (e : Nat × Player).1 ch.users = false) →
    alSorted l →
    ∀ k q g, (k, q) ∈ l → q.guild = some g → g.motd ≠ "" →
    ch.id = CHANNEL_GUILD →
    ChatChannel.executeOnJoinEvent env ch q = true →
    Ev.guildMotd q.pid ∈ (Chat.readdUsers env l ch).2 := by
  intro l
  induction l with
  | nil =>
    intro ch _ _ _ k q g hmem
    simp at hmem
  | cons e rest ih =>
    intro ch hpid hdisj hsort k q g hmem hguild hmotd hid hallow
    obtain ⟨k0, q0⟩ := e
    simp only [alSorted, List.pairwise_cons] at hsort
    rw [readdUsers_cons]
    rcases List.mem_cons.mp hmem with hq | hq
    · -- the member at the head: its addUser succeeds and schedules the task
      have hkk : k = k0 ∧ q = q0 := by
        have := Prod.mk.injEq k q k0 q0 ▸ hq
        exact ⟨this.1, this.2⟩
      have hq0abs : alContains q0.pid ch.users = false := by
        rw [hpid (k0, q0) (by simp)]
        exact hdisj (k0, q0) (by simp)
      have hadd := addUser_success_eq env ch q0 hq0abs (hkk.2 ▸ hallow)
      have hevs : (ChatChannel.addUser env ch q0).evs =
          (if ch.id = CHANNEL_GUILD then
            match q0.guild with
            | some g => if g.motd ≠ "" then [Ev.guildMotd q0.pid] else []
            | none => []
          else []) ++
          (if ch.publicChannel = false then
            ch.users.map
              (fun e => Ev.channelEvent e.2.pid ch.id q0.name .join)
          else []) := by rw [hadd]
      simp only [List.mem_append]
      left
      rw [hevs]
      simp only [List.mem_append]
      left
      rw [if_pos hid, hkk.2]
      have hguild0 : q0.guild = some g := hkk.2 ▸ hguild
      rw [hguild0]
      simp [hmotd]
    · -- the member is further down: recurse through the mutated channel
      have hpres := addUser_preserves env ch q0
      simp only [List.mem_append]
      right
      refine ih (ChatChannel.addUser env ch q0).chan
        (fun e he => hpid e (by simp [he])) ?_ hsort.2 k q g hq hguild hmotd
        (hpres.1.trans hid) ?_
      · intro e he
        rcases addUser_chan_cases env ch q0 with hc | ⟨-, hc⟩
        · rw [hc]
          exact hdisj e (by simp [he])
        · rw [hc]
          have hne : (e : Nat × Player).1 ≠ q0.pid := by
            rw [hpid (k0, q0) (by simp)]
            exact ne_of_gt (hsort.1 e he)
          rw [show ({ ch with users := alInsert q0.pid q0 ch.users }
              : ChatChannel).users = alInsert q0.pid q0 ch.users from rfl,
            alContains_alInsert_ne _ _ _ _ hne]
          exact hdisj e (by simp [he])
      · rw [executeOnJoinEvent_congr env _ ch q hpres.2.2.2.2.1]
        exact hallow

/-- `applyDef` replaces only the configuration: the ledgers survive. -/
theorem applyDef_keeps (ch : ChatChannel) (d : Chat.ChannelDef) :
    (Chat.applyDef ch d).users = ch.users ∧
    (Chat.applyDef ch d).id = ch.id ∧
    (Chat.applyDef ch d).invites = ch.invites ∧
    (Chat.applyDef ch d).owner = ch.owner := by
  rw [Chat.applyDef]
  cases hs : d.script with
  | none => exact ⟨rfl, rfl, rfl, rfl⟩
  | some s =>
    cases s with
    | none => exact ⟨rfl, rfl, rfl, rfl⟩
    | some h4 => exact ⟨rfl, rfl, rfl, rfl⟩

/-- When the script attribute loads, `applyDef` installs the new name,
public flag and all four hook bindings. -/
theorem applyDef_script (ch : ChatChannel) (d : Chat.ChannelDef)
    (h4 : Int × Int × Int × Int) (hs : d.script = some (some h4)) :
    (Chat.applyDef ch d).name = d.name ∧
    (Chat.applyDef ch d).publicChannel = d.isPublic ∧
    (Chat.applyDef ch d).onSpeakEvent = h4.1 ∧
    (Chat.applyDef ch d).canJoinEvent = h4.2.1 ∧
    (Chat.applyDef ch d).onJoinEvent = h4.2.2.1 ∧
    (Chat.applyDef ch d).onLeaveEvent = h4.2.2.2 := by
  rw [Chat.applyDef, hs]
  exact ⟨rfl, rfl, rfl, rfl, rfl, rfl⟩

/-- Reduction of `Chat::load`'s per-node step on an already-registered
channel. -/
theorem loadChannelNode_found (env : HookEnv) (st : Chat)
    (d : Chat.ChannelDef) (ch : ChatChannel)
    (hfind : alFind d.id st.normalChannels = some ch) :
    Chat.loadChannelNode env st d =
      ({ st with normalChannels := alInsert d.id (Chat.readdUsers env (Chat.applyDef ch d).users { Chat.applyDef ch d with users := [] }).1 st.normalChannels },
       (Chat.readdUsers env (Chat.applyDef ch d).users { Chat.applyDef ch d with users := [] }).2) := by
  rw [Chat.loadChannelNode, hfind]

/-- When every id in [100, 10000) is taken, the private-creation scan
fails and `createChannel` yields no channel. -/
theorem createChannel_full_none (env : HookEnv) (st : Chat) (p : Player)
    (hfull : ∀ j, 100 ≤ j → j < 10000 →
      alContains j st.privateChannels = true) :
    (Chat.createChannel env st p CHANNEL_PRIVATE).2 = none := by
  have hscan : Chat.scanFree st.privateChannels 100 9900 = none :=
    scanFree_eq_none _ _ _ (fun j hj1 hj2 => hfull j hj1 (by omega))
  by_cases hg : (Chat.getChannel env st p CHANNEL_PRIVATE).isSome
  · rw [Chat.createChannel, if_pos hg]
  · rw [Chat.createChannel, if_neg hg, if_neg (by decide), if_neg (by decide),
      if_pos rfl]
    by_cases hp : p.premium = false
    · rw [if_pos hp]
    · rw [if_neg hp]
      by_cases ho : (Chat.getPrivateChannel st p).isSome
      · rw [if_pos ho]
      · rw [if_neg ho, hscan]

/-- Reduction of the successful private-creation path. -/
theorem createChannel_private_success (env : HookEnv) (st : Chat)
    (p : Player) (i : Nat)
    (hg : Chat.getChannel env st p CHANNEL_PRIVATE = none)
    (hp : p.premium = true)
    (ho : Chat.getPrivateChannel st p = none)
    (hscan : Chat.scanFree st.privateChannels 100 9900 = some i) :
    Chat.createChannel env st p CHANNEL_PRIVATE =
      ({ st with privateChannels := alInsert i { id := i, name := Chat.privateChannelName p, owner := p.guid } st.privateChannels },
       some (ChanRef.priv i, { id := i, name := Chat.privateChannelName p, owner := p.guid })) := by
  rw [Chat.createChannel, if_neg (by simp [hg]), if_neg (by decide),
    if_neg (by decide), if_pos rfl, if_neg (by simp [hp]),
    if_neg (by simp [ho]), hscan]

/-! ### Claim theorems -/

/-- C9: for every private channel, `isInvited(id)` is true iff `id` equals
the owner or `id` is in the explicit invite set; in particular the owner is
invited even when absent from the invite set. -/
theorem isInvited_owner_or_explicit (ch : ChatChannel) (guid : Nat) :
    (PrivateChatChannel.isInvited ch guid = true ↔
      guid = ch.owner ∨ alContains guid ch.invites = true) ∧
    PrivateChatChannel.isInvited ch ch.owner = true := by
  constructor
  · rw [PrivateChatChannel.isInvited]
    by_cases h : guid = ch.owner
    · simp [h]
    · simp [h]
  · simp [PrivateChatChannel.isInvited]

/-- C6: after a successful `addUser(p)`, a second consecutive `addUser(p)`
fails and leaves the membership ledger unchanged, so the membership count
after the second call equals the count after the first. -/
theorem addUser_twice_fails (env : HookEnv) (ch : ChatChannel) (p : Player)
    (h : (ChatChannel.addUser env ch p).ok = true) :
    ChatChannel.addUser env (ChatChannel.addUser env ch p).chan p =
      ⟨(ChatChannel.addUser env ch p).chan, [], false⟩ ∧
    (ChatChannel.addUser env (ChatChannel.addUser env ch p).chan p).chan.users.length
      = (ChatChannel.addUser env ch p).chan.users.length := by
  obtain ⟨_, _, h3⟩ := addUser_ok_imp env ch p h
  have hc : alContains p.pid (ChatChannel.addUser env ch p).chan.users = true := by
    rw [h3]
    exact alContains_alInsert_self _ _ _
  refine ⟨addUser_already_member _ _ _ hc, ?_⟩
  rw [addUser_already_member _ _ _ hc]

/-- Witness for C6 at a concrete empty channel and player. -/
theorem addUser_twice_fails_witness :
    (ChatChannel.addUser hookAllowAll { id := 3, name := "T" } alice).ok = true ∧
    ChatChannel.addUser hookAllowAll
        (ChatChannel.addUser hookAllowAll { id := 3, name := "T" } alice).chan alice =
      ⟨(ChatChannel.addUser hookAllowAll { id := 3, name := "T" } alice).chan,
       [], false⟩ :=
  ⟨by decide,
   (addUser_twice_fails hookAllowAll { id := 3, name := "T" } alice (by decide)).1⟩

/-- C10: a successful private-channel creation yields a channel with an
empty membership ledger, so the owner's immediate `talk` fails and delivers
nothing. -/
theorem createChannel_private_not_member (env : HookEnv) (st : Chat)
    (p : Player) (r : ChanRef) (ch : ChatChannel)
    (h : (Chat.createChannel env st p CHANNEL_PRIVATE).2 = some (r, ch))
    (t : Nat) (text : String) :
    ch.users = [] ∧ ChatChannel.talk ch p t text = (false, []) := by
  have hch : ch.users = [] := by
    by_cases hg : (Chat.getChannel env st p CHANNEL_PRIVATE).isSome
    · rw [Chat.createChannel, if_pos hg] at h
      simp at h
    · rw [Chat.createChannel, if_neg hg, if_neg (by decide), if_neg (by decide),
        if_pos rfl] at h
      by_cases hp : p.premium = false
      · rw [if_pos hp] at h
        simp at h
      · rw [if_neg hp] at h
        by_cases ho : (Chat.getPrivateChannel st p).isSome
        · rw [if_pos ho] at h
          simp at h
        · rw [if_neg ho] at h
          cases hscan : Chat.scanFree st.privateChannels 100 9900 with
          | none =>
            rw [hscan] at h
            simp at h
          | some i =>
            rw [hscan] at h
            simp at h
            rw [← h.2]
  refine ⟨hch, ?_⟩
  rw [ChatChannel.talk, hch]
  simp [alContains, alFind]

/-- Witness for C10 at the empty registry. -/
theorem createChannel_private_not_member_witness :
    (Chat.createChannel hookAllowAll {} alice CHANNEL_PRIVATE).2 =
      some (ChanRef.priv 100, aliceChan) ∧
    aliceChan.users = [] ∧ ChatChannel.talk aliceChan alice 7 "hi" = (false, []) :=
  ⟨by decide,
   createChannel_private_not_member hookAllowAll {} alice (ChanRef.priv 100)
     aliceChan (by decide) 7 "hi"⟩

/-- C5: `excludePlayer(inviter, excludee)` is a no-op (no state change, no
notifications) when the excludee holds no explicit invite; otherwise it
revokes the invite, removes the excludee from membership, notifies the
inviter, sends the excludee a private-close notice, and broadcasts an
exclude event to the remaining members. -/
theorem excludePlayer_spec (env : HookEnv) (ch : ChatChannel)
    (player excluded : Player)
    (hsi : alSorted ch.invites) (hsu : alSorted ch.users) :
    (alContains excluded.guid ch.invites = false →
      PrivateChatChannel.excludePlayer env ch player excluded = (ch, [])) ∧
    (alContains excluded.guid ch.invites = true →
      alContains excluded.guid
        (PrivateChatChannel.excludePlayer env ch player excluded).1.invites = false ∧
      alFind excluded.pid
        (PrivateChatChannel.excludePlayer env ch player excluded).1.users = none ∧
      Ev.textMessage player.pid (excluded.name ++ " has been excluded.")
        ∈ (PrivateChatChannel.excludePlayer env ch player excluded).2 ∧
      Ev.closePrivate excluded.pid ch.id
        ∈ (PrivateChatChannel.excludePlayer env ch player excluded).2 ∧
      ∀ e ∈ (PrivateChatChannel.excludePlayer env ch player excluded).1.users,
        Ev.channelEvent e.2.pid ch.id excluded.name ChannelEventKind.exclude
          ∈ (PrivateChatChannel.excludePlayer env ch player excluded).2) := by
  constructor
  · intro hc
    rw [PrivateChatChannel.excludePlayer]
    simp only [PrivateChatChannel.removeInvite]
    rw [if_pos hc]
  · intro hc
    have hinv : ({ ch with invites := alErase excluded.guid ch.invites }
        : ChatChannel).users = ch.users := rfl
    cases hfind : alFind excluded.pid ch.users with
    | none =>
      have hrm := removeUser_not_mem env
        { ch with invites := alErase excluded.guid ch.invites } excluded
        (by rw [hinv]; exact hfind)
      rw [PrivateChatChannel.excludePlayer]
      simp only [PrivateChatChannel.removeInvite]
      rw [if_neg (by simp [hc]), hrm]
      refine ⟨alContains_alErase_self _ _ hsi, hfind, ?_, ?_, ?_⟩
      · simp
      · simp
      · intro e he
        simp only [List.mem_append]
        exact Or.inr (List.mem_map_of_mem _ he)
    | some v =>
      have hrm := removeUser_mem_eq env
        { ch with invites := alErase excluded.guid ch.invites } excluded v
        (by rw [hinv]; exact hfind)
      rw [PrivateChatChannel.excludePlayer]
      simp only [PrivateChatChannel.removeInvite]
      rw [if_neg (by simp [hc]), hrm]
      refine ⟨alContains_alErase_self _ _ hsi, ?_, ?_, ?_, ?_⟩
      · exact alFind_alErase_self _ _ hsu
      · simp
      · simp
      · intro e he
        simp only [List.mem_append]
        exact Or.inr (List.mem_map_of_mem _ he)

/-- Witness for C5: excluding the invited member bob works, excluding the
never-invited carol is a no-op. -/
theorem excludePlayer_spec_witness :
    (alContains carol.guid chEx.invites = false ∧
      PrivateChatChannel.excludePlayer hookAllowAll chEx alice carol = (chEx, [])) ∧
    (alContains bob.guid chEx.invites = true ∧
      alContains bob.guid
        (PrivateChatChannel.excludePlayer hookAllowAll chEx alice bob).1.invites
        = false ∧
      Ev.closePrivate bob.pid chEx.id
        ∈ (PrivateChatChannel.excludePlayer hookAllowAll chEx alice bob).2) :=
  ⟨⟨by decide,
    (excludePlayer_spec hookAllowAll chEx alice carol (by simp [chEx, alSorted])
      (by simp [chEx, alSorted])).1 (by decide)⟩,
   ⟨by decide,
    ((excludePlayer_spec hookAllowAll chEx alice bob (by simp [chEx, alSorted])
      (by simp [chEx, alSorted])).2 (by decide)).1,
    ((excludePlayer_spec hookAllowAll chEx alice bob (by simp [chEx, alSorted])
      (by simp [chEx, alSorted])).2 (by decide)).2.2.2.1⟩⟩

/-- C4: a bound `onSpeak` hook that denies — including via the tripped
nesting guard — makes `talkToChannel` fail with no message delivered; a
numeric return replaces the render class before `talk` delivers. -/
theorem talkToChannel_onSpeak_spec (env : HookEnv) (st : Chat) (p : Player)
    (t : Nat) (text : String) (channelId : Nat) (r : ChanRef)
    (ch : ChatChannel)
    (hres : Chat.getChannel env st p channelId = some (r, ch)) :
    ((ChatChannel.executeOnSpeakEvent env ch p
        (Chat.coerceSpeakType p channelId t) text).1 = false →
      Chat.talkToChannel env st p t text channelId = (false, [])) ∧
    (ch.onSpeakEvent ≠ -1 → env.reserveOk = false →
      Chat.talkToChannel env st p t text channelId = (false, [])) ∧
    (∀ n, ch.onSpeakEvent ≠ -1 → env.reserveOk = true →
      env.evalSpeak ch.onSpeakEvent p (Chat.coerceSpeakType p channelId t) text
        = SpeakHookRet.retNum n →
      Chat.talkToChannel env st p t text channelId =
        ChatChannel.talk ch p n text) ∧
    (∀ n, ch.onSpeakEvent ≠ -1 → env.reserveOk = true →
      env.evalSpeak ch.onSpeakEvent p (Chat.coerceSpeakType p channelId t) text
        = SpeakHookRet.retNum n →
      alContains p.pid ch.users = true →
      Chat.talkToChannel env st p t text channelId =
        (true, ch.users.map
          (fun e => Ev.toChannel e.2.pid p.pid n text (e.1 % 65536)))) := by
  have hunfold : Chat.talkToChannel env st p t text channelId =
      (if (ChatChannel.executeOnSpeakEvent env ch p
            (Chat.coerceSpeakType p channelId t) text).1 = false then (false, [])
       else ChatChannel.talk ch p
         (ChatChannel.executeOnSpeakEvent env ch p
           (Chat.coerceSpeakType p channelId t) text).2 text) := by
    simp only [Chat.talkToChannel, hres]
  have hnum : ∀ n, ch.onSpeakEvent ≠ -1 → env.reserveOk = true →
      env.evalSpeak ch.onSpeakEvent p (Chat.coerceSpeakType p channelId t) text
        = SpeakHookRet.retNum n →
      ChatChannel.executeOnSpeakEvent env ch p
        (Chat.coerceSpeakType p channelId t) text = (true, n) := by
    intro n hb hg he
    rw [ChatChannel.executeOnSpeakEvent, if_neg hb,
      if_neg (by simp [hg]), he]
  refine ⟨?_, ?_, ?_, ?_⟩
  · intro hd
    rw [hunfold, if_pos hd]
  · intro hb hg
    rw [hunfold, if_pos ?_]
    rw [ChatChannel.executeOnSpeakEvent, if_neg hb, if_pos hg]
  · intro n hb hg he
    rw [hunfold, hnum n hb hg he, if_neg (by simp)]
  · intro n hb hg he hmem
    rw [hunfold, hnum n hb hg he, if_neg (by simp)]
    rw [ChatChannel.talk, if_neg (by simp [hmem])]

/-- Witness for C4: a tripped guard drops the utterance; a numeric return
overrides the render class to 9. -/
theorem talkToChannel_onSpeak_spec_witness :
    (chHook.onSpeakEvent ≠ -1 ∧
      Chat.talkToChannel hookGuardTripped stHook alice 5 "hi" 100 = (false, [])) ∧
    Chat.talkToChannel hookSpeakNum9 stHook alice 5 "hi" 100 =
      (true, chHook.users.map
        (fun e => Ev.toChannel e.2.pid alice.pid 9 "hi" (e.1 % 65536))) :=
  ⟨⟨by decide,
    (talkToChannel_onSpeak_spec hookGuardTripped stHook alice 5 "hi" 100
      (ChanRef.priv 100) chHook (by decide)).2.1 (by decide) rfl⟩,
   (talkToChannel_onSpeak_spec hookSpeakNum9 stHook alice 5 "hi" 100
      (ChanRef.priv 100) chHook (by decide)).2.2.2 9 (by decide) rfl rfl
      (by decide)⟩

/-- C8 counterexample: speaking in a live private channel (id 100, inside
[100, 10000)) with requested render class 5 delivers class 5 unchanged —
the "forced to the party class" coercion does not fire, because it tests
the requested id against the reserved `CHANNEL_PRIVATE` sentinel, which no
live private channel carries. -/
theorem speak_private_not_forced_cex :
    Chat.talkToChannel hookAllowAll stPrivTalk alice 5 "hi" 100 =
      (true, [Ev.toChannel alice.pid alice.pid 5 "hi" (1 % 65536)]) ∧
    (5 : Nat) ≠ TALKTYPE_CHANNEL_Y ∧
    alFind 100 stPrivTalk.privateChannels = some chPriv100 := by
  decide

/-- C8 (amended): the guild coercion is as claimed (officer above rank
level 1, plain class otherwise); the party-class forcing fires exactly when
the requested channel id is the reserved `CHANNEL_PARTY` or
`CHANNEL_PRIVATE` id; an id in the live private range [100, 10000) leaves
the requested render class unchanged. -/
theorem coerceSpeakType_amended (p : Player) (channelId t : Nat) :
    (channelId = CHANNEL_GUILD →
      ((∃ l, p.rankLevel = some l ∧ 1 < l) →
        Chat.coerceSpeakType p channelId t = TALKTYPE_CHANNEL_O) ∧
      ((∀ l, p.rankLevel = some l → l ≤ 1) →
        Chat.coerceSpeakType p channelId t = TALKTYPE_CHANNEL_Y)) ∧
    ((channelId = CHANNEL_PARTY ∨ channelId = CHANNEL_PRIVATE) →
      Chat.coerceSpeakType p channelId t = TALKTYPE_CHANNEL_Y) ∧
    (100 ≤ channelId → channelId < 10000 →
      Chat.coerceSpeakType p channelId t = t) := by
  refine ⟨?_, ?_, ?_⟩
  · intro hg
    subst hg
    rw [Chat.coerceSpeakType, if_pos rfl]
    constructor
    · rintro ⟨l, hl, hl1⟩
      rw [hl]
      simp [hl1]
    · intro hle
      cases hrank : p.rankLevel with
      | none =>
        by_cases ht : t = TALKTYPE_CHANNEL_Y
        · simp [ht]
        · simp [ht]
      | some l =>
        have hnl : ¬ 1 < l := by
          have := hle l hrank
          omega
        by_cases ht : t = TALKTYPE_CHANNEL_Y
        · simp [hnl, ht]
        · simp [hnl, ht]
  · intro hor
    have hne : ¬ channelId = CHANNEL_GUILD := by
      rcases hor with h | h <;> subst h <;> decide
    rw [Chat.coerceSpeakType, if_neg hne]
    by_cases ht : t = TALKTYPE_CHANNEL_Y
    · rw [if_neg (by simp [ht]), ht]
    · rw [if_pos ⟨ht, hor.symm⟩]
  · intro h1 h2
    have hne : ¬ channelId = CHANNEL_GUILD := by
      rw [CHANNEL_GUILD]
      omega
    rw [Chat.coerceSpeakType, if_neg hne, if_neg ?_]
    rintro ⟨-, hor⟩
    rcases hor with h | h
    · rw [CHANNEL_PRIVATE] at h
      omega
    · rw [CHANNEL_PARTY] at h
      omega

/-- Witness for C8's amended statement: an officer rank elevates, the
reserved party id forces the party class, and a live private id keeps the
requested class. -/
theorem coerceSpeakType_amended_witness :
    Chat.coerceSpeakType { alice with rankLevel := some 2 } CHANNEL_GUILD 5
      = TALKTYPE_CHANNEL_O ∧
    Chat.coerceSpeakType alice CHANNEL_PARTY 5 = TALKTYPE_CHANNEL_Y ∧
    Chat.coerceSpeakType alice 100 5 = 5 :=
  ⟨((coerceSpeakType_amended { alice with rankLevel := some 2 }
      CHANNEL_GUILD 5).1 rfl).1 ⟨2, rfl, by decide⟩,
   (coerceSpeakType_amended alice CHANNEL_PARTY 5).2.1 (Or.inl rfl),
   (coerceSpeakType_amended alice 100 5).2.2 (by decide) (by decide)⟩

/-- C2: private creation succeeds only for a premium player owning no
private channel; on success the new channel is owned by the requester and
sits at the first id in [100, 10000) not used by a live private channel;
with the range exhausted creation yields no channel; and with exactly one
id free, exactly one further allocation succeeds. -/
theorem createChannel_private_spec (env : HookEnv) (st : Chat) (p : Player) :
    (∀ r ch, (Chat.createChannel env st p CHANNEL_PRIVATE).2 = some (r, ch) →
      p.premium = true ∧ Chat.getPrivateChannel st p = none ∧
      ch.owner = p.guid ∧
      ∃ i, r = ChanRef.priv i ∧ ch.id = i ∧ 100 ≤ i ∧ i < 10000 ∧
        alContains i st.privateChannels = false ∧
        (∀ j, 100 ≤ j → j < i → alContains j st.privateChannels = true) ∧
        alFind i (Chat.createChannel env st p CHANNEL_PRIVATE).1.privateChannels
          = some ch) ∧
    ((∀ j, 100 ≤ j → j < 10000 → alContains j st.privateChannels = true) →
      (Chat.createChannel env st p CHANNEL_PRIVATE).2 = none) ∧
    (∀ f, 100 ≤ f → f < 10000 → alContains f st.privateChannels = false →
      (∀ j, 100 ≤ j → j < 10000 → j ≠ f →
        alContains j st.privateChannels = true) →
      p.premium = true → Chat.getPrivateChannel st p = none →
      Chat.getChannel env st p CHANNEL_PRIVATE = none →
      (∃ ch, (Chat.createChannel env st p CHANNEL_PRIVATE).2
          = some (ChanRef.priv f, ch) ∧ ch.owner = p.guid) ∧
      (∀ (env2 : HookEnv) (q : Player),
        (Chat.createChannel env2
          (Chat.createChannel env st p CHANNEL_PRIVATE).1 q CHANNEL_PRIVATE).2
          = none)) := by
  refine ⟨?_, createChannel_full_none env st p, ?_⟩
  · intro r ch h
    by_cases hg : (Chat.getChannel env st p CHANNEL_PRIVATE).isSome
    · rw [Chat.createChannel, if_pos hg] at h
      exact absurd h (by simp)
    · by_cases hp : p.premium = false
      · rw [Chat.createChannel, if_neg hg, if_neg (by decide),
          if_neg (by decide), if_pos rfl, if_pos hp] at h
        exact absurd h (by simp)
      · by_cases ho : (Chat.getPrivateChannel st p).isSome
        · rw [Chat.createChannel, if_neg hg, if_neg (by decide),
            if_neg (by decide), if_pos rfl, if_neg hp, if_pos ho] at h
          exact absurd h (by simp)
        · cases hscan : Chat.scanFree st.privateChannels 100 9900 with
          | none =>
            rw [Chat.createChannel, if_neg hg, if_neg (by decide),
              if_neg (by decide), if_pos rfl, if_neg hp, if_neg ho, hscan] at h
            exact absurd h (by simp)
          | some i =>
            have hsucc := createChannel_private_success env st p i
              (Option.not_isSome_iff_eq_none.mp hg) (by simpa using hp)
              (Option.not_isSome_iff_eq_none.mp ho) hscan
            rw [hsucc] at h
            simp only [Option.some.injEq, Prod.mk.injEq] at h
            obtain ⟨hr, hch⟩ := h
            subst hr
            subst hch
            obtain ⟨s1, s2, s3, s4⟩ :=
              scanFree_some_spec st.privateChannels 9900 100 i hscan
            refine ⟨by simpa using hp, Option.not_isSome_iff_eq_none.mp ho,
              rfl, i, rfl, rfl, s1, by omega, s3, s4, ?_⟩
            rw [hsucc]
            exact alFind_alInsert_self _ _ _
  · intro f h1 h2 h3 h4 hp ho hg
    have hscan := scanFree_eq_some st.privateChannels 9900 100 f h1 (by omega)
      h3 (fun j hj1 hj2 => h4 j hj1 (by omega) (by omega))
    have hsucc := createChannel_private_success env st p f hg hp ho hscan
    constructor
    · exact ⟨{ id := f, name := Chat.privateChannelName p, owner := p.guid },
        by rw [hsucc], rfl⟩
    · intro env2 q
      apply createChannel_full_none
      intro j hj1 hj2
      rw [hsucc]
      by_cases hjf : j = f
      · subst hjf
        exact alContains_alInsert_self _ _ _
      · have hstep : alContains j
            (alInsert f { id := f, name := Chat.privateChannelName p, owner := p.guid } st.privateChannels)
            = alContains j st.privateChannels :=
          alContains_alInsert_ne _ _ _ _ hjf
        rw [show ((({ st with privateChannels := alInsert f { id := f, name := Chat.privateChannelName p, owner := p.guid } st.privateChannels } : Chat),
            some ((ChanRef.priv f),
              ({ id := f, name := Chat.privateChannelName p, owner := p.guid } : ChatChannel))).1).privateChannels
            = alInsert f { id := f, name := Chat.privateChannelName p, owner := p.guid } st.privateChannels from rfl,
          hstep]
        exact h4 j hj1 hj2 hjf

/-- Witness for C2's one-id-free clause: with ids 101..9999 occupied and
100 free, premium alice allocates exactly id 100, and afterwards every
further private allocation (any player, any hook environment) fails. -/
theorem createChannel_private_spec_witness :
    (alContains 100 stMinusOne.privateChannels = false ∧
      alice.premium = true) ∧
    (∃ ch, (Chat.createChannel hookAllowAll stMinusOne alice CHANNEL_PRIVATE).2
        = some (ChanRef.priv 100, ch) ∧ ch.owner = alice.guid) ∧
    (∀ (env2 : HookEnv) (q : Player),
      (Chat.createChannel env2
        (Chat.createChannel hookAllowAll stMinusOne alice CHANNEL_PRIVATE).1 q
        CHANNEL_PRIVATE).2 = none) := by
  have hpriv : stMinusOne.privateChannels = fullPriv 101 9899 := rfl
  have w2 : alContains 100 stMinusOne.privateChannels = false := by
    rw [hpriv, alContains_fullPriv]
    exact decide_eq_false (by omega)
  have w1 : ∀ j, 100 ≤ j → j < 10000 → j ≠ 100 →
      alContains j stMinusOne.privateChannels = true := by
    intro j hj1 hj2 hj3
    rw [hpriv, alContains_fullPriv]
    exact decide_eq_true (by omega)
  have w4 : Chat.getPrivateChannel stMinusOne alice = none := by
    rw [Chat.getPrivateChannel, hpriv]
    exact find?_owner_fullPriv alice.guid (by decide) 9899 101
  have wfind : alFind CHANNEL_PRIVATE stMinusOne.privateChannels = none := by
    rw [hpriv, alFind_fullPriv]
    exact if_neg (by rw [show CHANNEL_PRIVATE = 65535 from rfl]; omega)
  have w5 : Chat.getChannel hookAllowAll stMinusOne alice CHANNEL_PRIVATE
      = none := by
    rw [Chat.getChannel, if_neg (by decide), if_neg (by decide),
      show alFind CHANNEL_PRIVATE stMinusOne.normalChannels = none from rfl,
      wfind]
  have happ := (createChannel_private_spec hookAllowAll stMinusOne alice).2.2
    100 (by omega) (by omega) w2 w1 (by decide) w4 w5
  exact ⟨⟨w2, by decide⟩, happ.1, happ.2⟩

/-- C3: after a successful registry `removeUser`, when the removed
participant was the channel's owner the registry deletes that channel —
the entry is erased and every remaining member is notified of closure —
while for a non-owner the channel stays registered (holding the shrunken
ledger). -/
theorem removeUserFromChannel_owner_cascade (env : HookEnv) (st : Chat)
    (p : Player) (channelId : Nat) (r : ChanRef) (ch : ChatChannel)
    (hs : alSorted st.privateChannels)
    (hres : Chat.getChannel env st p channelId = some (r, ch))
    (hmem : alContains p.pid ch.users = true) :
    (Chat.removeUserFromChannel env st p channelId).ok = true ∧
    (ch.owner ≠ p.guid →
      chanAt (Chat.removeUserFromChannel env st p channelId).st r =
        some { ch with users := alErase p.pid ch.users }) ∧
    (ch.owner = p.guid → r = ChanRef.priv channelId →
      channelId ≠ CHANNEL_GUILD → channelId ≠ CHANNEL_PARTY →
      alFind channelId
        (Chat.removeUserFromChannel env st p channelId).st.privateChannels
        = none ∧
      ∀ e ∈ alErase p.pid ch.users,
        Ev.closePrivate e.2.pid ch.id
          ∈ (Chat.removeUserFromChannel env st p channelId).evs) := by
  obtain ⟨v, hv⟩ := alContains_some _ _ hmem
  have hrm := removeUser_mem_eq env ch p v hv
  have hred := removeUserFromChannel_resolved env st p channelId r ch hres
  rw [hrm] at hred
  have howner : (({ ch with users := alErase p.pid ch.users }
      : ChatChannel)).owner = ch.owner := rfl
  by_cases ho : ch.owner = p.guid
  · -- owner: the cascade branch
    rw [if_neg (by simp), if_pos (by rw [howner]; exact ho)] at hred
    refine ⟨by rw [hred], fun hno => absurd ho hno, ?_⟩
    intro _ hr h1 h2
    subst hr
    have hf : alFind channelId
        (setChan st (ChanRef.priv channelId)
          { ch with users := alErase p.pid ch.users }).privateChannels =
        some { ch with users := alErase p.pid ch.users } := by
      simp only [setChan]
      exact alFind_alInsert_self _ _ _
    have hdel := deleteChannel_priv_found
      (setChan st (ChanRef.priv channelId)
        { ch with users := alErase p.pid ch.users }) p channelId
      { ch with users := alErase p.pid ch.users } h1 h2 hf
    rw [hdel] at hred
    rw [hred]
    constructor
    · simp only [setChan]
      exact alFind_alErase_self _ _ (alSorted_alInsert _ _ _ hs)
    · intro e he
      simp only [List.mem_append]
      right
      rw [PrivateChatChannel.closeChannel]
      have : Ev.closePrivate e.2.pid
          ({ ch with users := alErase p.pid ch.users } : ChatChannel).id =
          Ev.closePrivate e.2.pid ch.id := rfl
      rw [← this]
      exact List.mem_map_of_mem _ he
  · -- non-owner: the entry stays, shrunk
    rw [if_neg (by simp), if_neg (by rw [howner]; exact ho)] at hred
    refine ⟨by rw [hred], ?_, fun hyes => absurd hyes ho⟩
    intro _
    rw [hred]
    exact chanAt_setChan_self _ _ _

/-- Witness for C3: alice removes herself from her own channel 100 (with
bob remaining); the channel is erased and bob is notified of closure. -/
theorem removeUserFromChannel_owner_cascade_witness :
    (Chat.removeUserFromChannel hookAllowAll stC3 alice 100).ok = true ∧
    alFind 100
      (Chat.removeUserFromChannel hookAllowAll stC3 alice 100).st.privateChannels
      = none ∧
    Ev.closePrivate bob.pid chC3.id
      ∈ (Chat.removeUserFromChannel hookAllowAll stC3 alice 100).evs :=
  ⟨(removeUserFromChannel_owner_cascade hookAllowAll stC3 alice 100
      (ChanRef.priv 100) chC3 (by simp [stC3, alSorted]) (by decide)
      (by decide)).1,
   ((removeUserFromChannel_owner_cascade hookAllowAll stC3 alice 100
      (ChanRef.priv 100) chC3 (by simp [stC3, alSorted]) (by decide)
      (by decide)).2.2 (by decide) rfl (by decide) (by decide)).1,
   ((removeUserFromChannel_owner_cascade hookAllowAll stC3 alice 100
      (ChanRef.priv 100) chC3 (by simp [stC3, alSorted]) (by decide)
      (by decide)).2.2 (by decide) rfl (by decide) (by decide)).2
     (2, bob) (by decide)⟩

/-- C7: reloading the configuration of an already-registered (and possibly
populated) static channel mutates it in place — name, public flag and all
four hook bindings replaced — and replays every existing member through the
normal join path: a key is a member afterwards exactly when it was a member
before and the new `onJoin` hook admits the stored player, and join-time
side effects (the scheduled guild message-of-the-day) re-fire for
re-admitted members of the guild channel. -/
theorem load_reconfigures_in_place (env : HookEnv) (st : Chat)
    (d : Chat.ChannelDef) (ch : ChatChannel) (h4 : Int × Int × Int × Int)
    (hfind : alFind d.id st.normalChannels = some ch)
    (hwf : usersWF ch.users)
    (hscript : d.script = some (some h4)) :
    ∃ ch2,
      alFind d.id (Chat.loadChannelNode env st d).1.normalChannels = some ch2 ∧
      ch2.name = d.name ∧ ch2.publicChannel = d.isPublic ∧
      ch2.onSpeakEvent = h4.1 ∧ ch2.canJoinEvent = h4.2.1 ∧
      ch2.onJoinEvent = h4.2.2.1 ∧ ch2.onLeaveEvent = h4.2.2.2 ∧
      (∀ k, alContains k ch2.users = true ↔
        ∃ q, (k, q) ∈ ch.users ∧
          ChatChannel.executeOnJoinEvent env
            { Chat.applyDef ch d with users := [] } q = true) ∧
      (∀ k q g, (k, q) ∈ ch.users → q.guild = some g → g.motd ≠ "" →
        ch.id = CHANNEL_GUILD →
        ChatChannel.executeOnJoinEvent env
          { Chat.applyDef ch d with users := [] } q = true →
        Ev.guildMotd q.pid ∈ (Chat.loadChannelNode env st d).2) := by
  have hred := loadChannelNode_found env st d ch hfind
  obtain ⟨hu, hid0, -, -⟩ := applyDef_keeps ch d
  obtain ⟨n1, n2, n3, n4, n5, n6⟩ := applyDef_script ch d h4 hscript
  obtain ⟨c1, c2, c3, c4, c5, c6, c7⟩ := readdUsers_config env
    (Chat.applyDef ch d).users { Chat.applyDef ch d with users := [] }
  have hsort2 : alSorted (Chat.applyDef ch d).users := by
    rw [hu]
    exact hwf.1
  have hpid2 : ∀ e ∈ (Chat.applyDef ch d).users,
      (e : Nat × Player).2.pid = e.1 := by
    rw [hu]
    exact hwf.2
  have hdisj2 : ∀ e ∈ (Chat.applyDef ch d).users,
      alContains (e : Nat × Player).1
        ({ Chat.applyDef ch d with users := [] } : ChatChannel).users
        = false := by
    intro e _
    rfl
  refine ⟨(Chat.readdUsers env (Chat.applyDef ch d).users
    { Chat.applyDef ch d with users := [] }).1, ?_, ?_, ?_, ?_, ?_, ?_, ?_,
    ?_, ?_⟩
  · rw [hred]
    exact alFind_alInsert_self _ _ _
  · exact c2.trans n1
  · exact c3.trans n2
  · exact c7.trans n3
  · exact c4.trans n4
  · exact c5.trans n5
  · exact c6.trans n6
  · intro k
    rw [readdUsers_mem env (Chat.applyDef ch d).users
      { Chat.applyDef ch d with users := [] } hsort2 hpid2 hdisj2 k]
    constructor
    · rintro (hfalse | ⟨q, hq1, hq2⟩)
      · exact absurd hfalse (by simp [alContains, alFind])
      · exact ⟨q, hu ▸ hq1, hq2⟩
    · rintro ⟨q, hq1, hq2⟩
      refine Or.inr ⟨q, ?_, hq2⟩
      rw [hu]
      exact hq1
  · intro k q g hmem hguild hmotd hidG hallow
    rw [hred]
    refine readdUsers_motd env (Chat.applyDef ch d).users
      { Chat.applyDef ch d with users := [] } hpid2 hdisj2 hsort2 k q g
      ?_ hguild hmotd ?_ hallow
    · rw [hu]
      exact hmem
    · exact hid0.trans hidG

/-- Witness for C7: reloading the populated guild channel (id 0) with new
name, flag and hooks; member gwen (guild motd "Welcome") is replayed. -/
theorem load_reconfigures_in_place_witness :
    usersWF chGuildW.users ∧
    (∃ ch2,
      alFind dW.id (Chat.loadChannelNode hookAllowAll stW dW).1.normalChannels
        = some ch2 ∧
      ch2.name = dW.name ∧ ch2.publicChannel = dW.isPublic ∧
      ch2.onSpeakEvent = ((10, 11, 12, 13) : Int × Int × Int × Int).1 ∧
      ch2.canJoinEvent = ((10, 11, 12, 13) : Int × Int × Int × Int).2.1 ∧
      ch2.onJoinEvent = ((10, 11, 12, 13) : Int × Int × Int × Int).2.2.1 ∧
      ch2.onLeaveEvent = ((10, 11, 12, 13) : Int × Int × Int × Int).2.2.2 ∧
      (∀ k, alContains k ch2.users = true ↔
        ∃ q, (k, q) ∈ chGuildW.users ∧
          ChatChannel.executeOnJoinEvent hookAllowAll
            { Chat.applyDef chGuildW dW with users := [] } q = true) ∧
      (∀ k q g, (k, q) ∈ chGuildW.users → q.guild = some g → g.motd ≠ "" →
        chGuildW.id = CHANNEL_GUILD →
        ChatChannel.executeOnJoinEvent hookAllowAll
          { Chat.applyDef chGuildW dW with users := [] } q = true →
        Ev.guildMotd q.pid ∈ (Chat.loadChannelNode hookAllowAll stW dW).2)) :=
  ⟨⟨by simp [chGuildW, alSorted], by intro e he; simp [chGuildW] at he; rw [he]; rfl⟩,
   load_reconfigures_in_place hookAllowAll stW dW chGuildW (10, 11, 12, 13)
     (by decide)
     ⟨by simp [chGuildW, alSorted], by intro e he; simp [chGuildW] at he; rw [he]; rfl⟩
     rfl⟩

/-- C1 (code defect, evaluated): with alice owning channel 100 and carol
owning channel 101, alice's `removeFromAll` empties the whole private
registry (the `privateChannels.clear()` call), erasing carol's unrelated
channel; and when alice owns nothing but is a member of and invited to
carol's channel, the registry is left completely unchanged (the loop
iterates by value, so removal and invite revocation mutate copies). -/
theorem removeFromAll_wrong_scope :
    ((Chat.removeUserFromAllChannels hookAllowAll stOwner alice).1.privateChannels
        = [] ∧
      alFind 101 stOwner.privateChannels = some chB ∧ chB.owner ≠ alice.guid) ∧
    ((Chat.removeUserFromAllChannels hookAllowAll stNoOwner alice).1 = stNoOwner ∧
      alContains alice.pid chB.users = true ∧
      alContains alice.guid chB.invites = true) := by
  decide

end Canary
